import Mathlib

/-!
Shallow embedding of the gc-arena capability protocol and the gc-sequence
one-shot stepped computations, translated from:
  src/gc-arena/src/collect_impl.rs
  src/gc-arena/src/static_collect.rs
  src/gc-arena/src/no_drop.rs
  src/gc-sequence/src/sequence_fn.rs
The collection capability is modelled as the ordered list of managed-pointer
registrations made so far, so that a traversal is observable as the list of
events it appends.
-/

namespace GcArena

/-- The collection capability (Rust `CollectionContext`), modelled as the
ordered list of managed-pointer ids registered so far during the mark pass.
A traversal call threads it through and appends its registrations. -/
abbrev CollectionContext := List Nat

/-- The mutation capability (Rust `MutationContext`): an opaque token supplied
by the arena for the duration of one call. It carries no observable data. -/
structure MutationContext where
  token : Unit

/-- Modelled from the spec: the Rust lifetime bound `T: 'static` (a type
unconditionally free of any arena-scoped lifetime). The bound itself is a
type-system fact with no computational content; an instance of this class
stands for the proof obligation discharged by the Rust compiler. -/
class StaticBound (α : Type) : Prop where
  holds : True

instance : StaticBound Bool := ⟨trivial⟩

instance : StaticBound Nat := ⟨trivial⟩

instance : StaticBound String := ⟨trivial⟩

/-- Modelled from the spec: the `Collect` trait itself lives in
`gc-arena/src/collect.rs`, which is not among the given sources; only its
implementations are. Per §4.1 of the spec, returning `false` from
`needs_trace` incorrectly is undefined behavior, so the trait default must be
the conservative `true`; the default traversal is a no-op (the leaf
implementations in `collect_impl.rs` override only `needs_trace`, and the
smart-pointer implementations override only `trace`, which is consistent only
with these defaults). -/
class Collect (α : Type) where
  needs_trace : Bool := true
  trace : α → CollectionContext → CollectionContext := fun _ cc => cc

/-- The static predicate of the capability descriptor for type `α`. -/
def needsTrace (α : Type) [c : Collect α] : Bool :=
  c.needs_trace

/-- Source: `static_collect!(bool)` in collect_impl.rs. -/
instance : Collect Bool where
  needs_trace := false

/-- Source: `static_collect!` for the integer types (u8..u64, usize, i8..i64, isize),
modelled at width-free `Nat` since no arithmetic is involved. -/
instance : Collect Nat where
  needs_trace := false

/-- Source: `static_collect!(String)` in collect_impl.rs. -/
instance : Collect String where
  needs_trace := false

/-- Modelled from the spec: a managed reference (`Gc` pointer, defined in
`gc-arena/src/gc.rs`, not among the given sources): a pointer into
collector-owned memory. Its traversal registers the pointer itself with the
collection capability, which is the observable event of the mark phase. -/
structure GcRef where
  id : Nat

instance : Collect GcRef where
  needs_trace := true
  trace p cc := cc ++ [p.id]

/-- Rust `&'a T` (shared reference), `impl<'a, T: ?Sized> Collect for &'a T`:
note the implementation has no `Collect` (nor any other) bound on `T`. -/
structure RefT (α : Type) where
  get : α

instance (α : Type) : Collect (RefT α) where
  needs_trace := false

/-- Rust `&'a mut T` (mutable reference), `impl<'a, T: ?Sized> Collect for
&'a mut T`: again no bound on `T`. -/
structure RefMutT (α : Type) where
  get : α

instance (α : Type) : Collect (RefMutT α) where
  needs_trace := false

/-- Rust `Box<T>`. -/
structure BoxT (α : Type) where
  val : α

/-- Source: `impl<T: ?Sized + Collect> Collect for Box<T>`: overrides only `trace`
(forwarding to the contained value); `needs_trace` is left at the trait
default. -/
instance (α : Type) [Collect α] : Collect (BoxT α) where
  trace b cc := Collect.trace b.val cc

/-- Rust `Box<[T]>` (boxed slice), modelled as its list of elements. -/
structure BoxSliceT (α : Type) where
  val : List α

/-- Source: `impl<T: Collect> Collect for Box<[T]>`: delegates `needs_trace` to the
element type and traces every element in order. -/
instance (α : Type) [Collect α] : Collect (BoxSliceT α) where
  needs_trace := needsTrace α
  trace b cc := b.val.foldl (fun c t => Collect.trace t c) cc

/-- Source: `impl<T: Collect> Collect for Option<T>`. -/
instance (α : Type) [Collect α] : Collect (Option α) where
  needs_trace := needsTrace α
  trace o cc :=
    match o with
    | some t => Collect.trace t cc
    | none => cc

/-- Rust `Result<T, E>`, with Rust's parameter order. -/
inductive ResultT (α ε : Type) where
  | Ok (v : α)
  | Err (e : ε)

/-- Source: `impl<T: Collect, E: Collect> Collect for Result<T, E>`. -/
instance (α ε : Type) [Collect α] [Collect ε] : Collect (ResultT α ε) where
  needs_trace := needsTrace α || needsTrace ε
  trace r cc :=
    match r with
    | ResultT.Ok v => Collect.trace v cc
    | ResultT.Err e => Collect.trace e cc

/-- Rust `Vec<T>`, modelled as its list of elements in index order. -/
structure VecT (α : Type) where
  val : List α

/-- Source: `impl<T: Collect> Collect for Vec<T>`. -/
instance (α : Type) [Collect α] : Collect (VecT α) where
  needs_trace := needsTrace α
  trace v cc := v.val.foldl (fun c t => Collect.trace t c) cc

/-- Rust `HashMap<K, V, S>`, modelled as its entry list in iteration order
(the iteration order of a hash map is arbitrary; the model fixes one). -/
structure HashMapT (κ ν : Type) where
  entries : List (κ × ν)

/-- Source: `impl<K: Eq + Hash + Collect, V: Collect, S: BuildHasher> Collect for
HashMap<K, V, S>`: `needs_trace` is the disjunction, `trace` visits the key
then the value of every entry. -/
instance (κ ν : Type) [Collect κ] [Collect ν] : Collect (HashMapT κ ν) where
  needs_trace := needsTrace κ || needsTrace ν
  trace m cc := m.entries.foldl (fun c kv => Collect.trace kv.2 (Collect.trace kv.1 c)) cc

/-- Rust `BTreeMap<K, V>`, modelled as its entry list in iteration (key)
order. -/
structure BTreeMapT (κ ν : Type) where
  entries : List (κ × ν)

/-- Source: `impl<K: Eq + Ord + Collect, V: Collect> Collect for BTreeMap<K, V>`. -/
instance (κ ν : Type) [Collect κ] [Collect ν] : Collect (BTreeMapT κ ν) where
  needs_trace := needsTrace κ || needsTrace ν
  trace m cc := m.entries.foldl (fun c kv => Collect.trace kv.2 (Collect.trace kv.1 c)) cc

/-- Rust fixed-size array `[T; N]`, modelled as a list of that length.
`collect_impl.rs` instantiates `impl_array_collect!` for each size 1..=32;
the macro body is the same for every size, so the model is parameterized by
`n` and the per-claim statements restrict to the instantiated sizes. -/
structure ArrayT (α : Type) (n : Nat) where
  val : List α
  len_eq : val.length = n

/-- Source: `impl_array_collect!`: `impl<T: Collect> Collect for [T; $sz]`. -/
instance (α : Type) (n : Nat) [Collect α] : Collect (ArrayT α n) where
  needs_trace := needsTrace α
  trace a cc := a.val.foldl (fun c t => Collect.trace t c) cc

/-- Rust `Cell<T>`. The contents are opaque to tracing; the model keeps the
current contents to state that tracing ignores them. -/
structure CellT (α : Type) where
  value : α

/-- Source: `impl<T: 'static> Collect for Cell<T>`: offered only under the `'static`
bound, `needs_trace` is `false`, `trace` is the trait default no-op. -/
instance (α : Type) [StaticBound α] : Collect (CellT α) where
  needs_trace := false

/-- Rust `RefCell<T>`. -/
structure RefCellT (α : Type) where
  value : α

/-- Source: `impl<T: 'static> Collect for RefCell<T>`. -/
instance (α : Type) [StaticBound α] : Collect (RefCellT α) where
  needs_trace := false

/-- Rust `StaticCollect<T>` (static_collect.rs): a wrapper granting the
trivial implementation to any `'static` type. -/
structure StaticCollect (α : Type) where
  val : α

/-- Source: `unsafe impl<T: 'static> Collect for StaticCollect<T>`. -/
instance (α : Type) [StaticBound α] : Collect (StaticCollect α) where
  needs_trace := false

/-- Rust's `Clone` trait, for the delegation claims. -/
class CloneC (α : Type) where
  clone : α → α

/-- Rust's `PartialEq` trait, for the delegation claims. -/
class PartialEqC (α : Type) where
  eqv : α → α → Bool

/-- Source: `impl<T: Clone> Clone for StaticCollect<T>` (static_collect.rs). -/
instance (α : Type) [CloneC α] : CloneC (StaticCollect α) where
  clone s := StaticCollect.mk (CloneC.clone s.val)

/-- Source: `impl<T: PartialEq> PartialEq for StaticCollect<T>` (static_collect.rs). -/
instance (α : Type) [PartialEqC α] : PartialEqC (StaticCollect α) where
  eqv a b := PartialEqC.eqv a.val b.val

instance : CloneC Nat where
  clone n := n

instance : PartialEqC Nat where
  eqv a b := a == b

/-- Modelled from the spec: a Rust type as seen by the no-finalizer guard —
whether it implements `Drop` (defines a destructor/finalizer hook) and
whether it asks for the derived `Collect` implementation. The derive macro
itself is not among the given sources. -/
structure RustType where
  implsDrop : Bool
  derivesCollect : Bool

/-- no_drop.rs: `impl<T: Drop> MustNotImplDrop for T` — every type that
implements `Drop` automatically receives the `MustNotImplDrop` marker, and
nothing else does. -/
def hasMustNotImplDrop (t : RustType) : Bool :=
  t.implsDrop

/-- Modelled from the spec: the protocol's derivation path (the derive macro,
not among the given sources) accepts a type only when the `MustNotImplDrop`
marker is absent, so the acceptance is decided statically, before any code
runs. -/
def collectDeriveAccepted (t : RustType) : Bool :=
  t.derivesCollect && !(hasMustNotImplDrop t)

end GcArena

namespace GcSequence

open GcArena

/-- Source: `SequenceFn<F>` (sequence_fn.rs): `struct SequenceFn<F>(Option<StaticCollect<F>>)`. -/
structure SequenceFn (F : Type) where
  val : Option (StaticCollect F)

/-- Source: `SequenceFn::new(f) = SequenceFn(Some(StaticCollect(f)))`. -/
def SequenceFn.new (f : F) : SequenceFn F :=
  ⟨some (StaticCollect.mk f)⟩

/-- Source: `Sequence::step` for `SequenceFn` (sequence_fn.rs lines 29-33):
`Some(self.0.take().expect("cannot step a finished sequence").0(mc))`.
`take` replaces the storage by `None`; `expect` panics with the given message
when the storage was already `None`. A panic is modelled as `Except.error`;
the normal return carries the post-state and the `Option<Output>` result. -/
def SequenceFn.step (s : SequenceFn (MutationContext → R)) (mc : MutationContext) :
    Except String (SequenceFn (MutationContext → R) × Option R) :=
  match s.val with
  | none => Except.error "cannot step a finished sequence"
  | some f => Except.ok (⟨none⟩, some (f.val mc))

/-- Source: `SequenceFnWith<C, F>` (sequence_fn.rs):
`struct SequenceFnWith<C, F>(Option<(C, StaticCollect<F>)>)`. -/
structure SequenceFnWith (C F : Type) where
  val : Option (C × StaticCollect F)

/-- Source: `SequenceFnWith::new(c, f) = SequenceFnWith(Some((c, StaticCollect(f))))`. -/
def SequenceFnWith.new (c : C) (f : F) : SequenceFnWith C F :=
  ⟨some (c, StaticCollect.mk f)⟩

/-- Source: `Sequence::step` for `SequenceFnWith` (sequence_fn.rs lines 62-65):
`let (c, StaticCollect(f)) = self.0.take().expect("cannot step a finished
sequence"); Some(f(mc, c))`. -/
def SequenceFnWith.step (s : SequenceFnWith C (MutationContext → C → R))
    (mc : MutationContext) :
    Except String (SequenceFnWith C (MutationContext → C → R) × Option R) :=
  match s.val with
  | none => Except.error "cannot step a finished sequence"
  | some cf => Except.ok (⟨none⟩, some (cf.2.val mc cf.1))

end GcSequence

namespace GcArena

/-- Helper: a fold whose step appends a per-element visit list appends the
concatenation of those lists, in fold (iteration) order. -/
theorem foldl_append_form {β : Type} (g : CollectionContext → β → CollectionContext)
    (f : β → List Nat) (h : ∀ cc x, g cc x = cc ++ f x) :
    ∀ (xs : List β) (cc : CollectionContext), xs.foldl g cc = cc ++ (xs.map f).flatten := by
  intro xs
  induction xs with
  | nil => intro cc; simp
  | cons x xs ih =>
    intro cc
    simp only [List.foldl_cons, List.map_cons, List.flatten_cons, h, ih, List.append_assoc]

/-- Helper: flattening a list of empty visit lists yields no visits. -/
theorem flatten_map_nil {β : Type} (l : List β) :
    (l.map (fun _ => ([] : List Nat))).flatten = [] := by
  induction l with
  | nil => rfl
  | cons x xs ih => simp [ih]

end GcArena

namespace GcArena

/-- Claim C3, counterexample: contrary to the claim, `Box<T>` does not
delegate `needs_trace` to the contained type: at `T = bool` the contained
type reports `false` but the box reports the trait default `true`. -/
theorem box_needs_trace_not_delegated_cex :
    needsTrace (BoxT Bool) = true ∧ needsTrace Bool = false :=
  ⟨rfl, rfl⟩

/-- Claim C3, amended: for every participating `T`, `Box<T>::trace` forwards
to the contained value's trace with the same collection capability, but
`Box<T>::needs_trace()` is not overridden and returns the trait's
conservative default `true` for every `T`, rather than `T::needs_trace()`. -/
theorem box_collect_forwards_trace (α : Type) [Collect α] :
    needsTrace (BoxT α) = true
    ∧ (∀ (b : BoxT α) (cc : CollectionContext), Collect.trace b cc = Collect.trace b.val cc) :=
  ⟨rfl, fun _ _ => rfl⟩

/-- Claim C4: for `HashMap<K, V, S>` and `BTreeMap<K, V>`, `needs_trace()` is
true iff `K::needs_trace() || V::needs_trace()`, and one trace call visits
the key and then the value of every entry (each entry contributing its key's
visits followed by its value's visits, once, in iteration order);
consequently a non-empty map over plain (non-tracing) key and value types
registers nothing. -/
theorem map_collect_spec (κ ν : Type) [Collect κ] [Collect ν]
    (fk : κ → List Nat) (fv : ν → List Nat)
    (hk : ∀ (k : κ) (cc : CollectionContext), Collect.trace k cc = cc ++ fk k)
    (hv : ∀ (v : ν) (cc : CollectionContext), Collect.trace v cc = cc ++ fv v) :
    needsTrace (HashMapT κ ν) = (needsTrace κ || needsTrace ν)
    ∧ needsTrace (BTreeMapT κ ν) = (needsTrace κ || needsTrace ν)
    ∧ (∀ (m : HashMapT κ ν) (cc : CollectionContext),
        Collect.trace m cc = cc ++ (m.entries.map (fun kv => fk kv.1 ++ fv kv.2)).flatten)
    ∧ (∀ (m : BTreeMapT κ ν) (cc : CollectionContext),
        Collect.trace m cc = cc ++ (m.entries.map (fun kv => fk kv.1 ++ fv kv.2)).flatten)
    ∧ (∀ (m : HashMapT Bool Nat) (cc : CollectionContext), Collect.trace m cc = cc)
    ∧ (∀ (m : BTreeMapT Nat String) (cc : CollectionContext), Collect.trace m cc = cc) := by
  have step : ∀ (cc : CollectionContext) (kv : κ × ν),
      Collect.trace kv.2 (Collect.trace kv.1 cc) = cc ++ (fk kv.1 ++ fv kv.2) := by
    intro cc kv
    rw [hk, hv, List.append_assoc]
  have plainBN : ∀ (l : List (Bool × Nat)) (cc : CollectionContext),
      l.foldl (fun c kv => Collect.trace kv.2 (Collect.trace kv.1 c)) cc = cc := by
    intro l cc
    have h := foldl_append_form
      (fun c (kv : Bool × Nat) => Collect.trace kv.2 (Collect.trace kv.1 c))
      (fun _ => []) (fun c kv => (List.append_nil c).symm) l cc
    rw [h, flatten_map_nil, List.append_nil]
  have plainNS : ∀ (l : List (Nat × String)) (cc : CollectionContext),
      l.foldl (fun c kv => Collect.trace kv.2 (Collect.trace kv.1 c)) cc = cc := by
    intro l cc
    have h := foldl_append_form
      (fun c (kv : Nat × String) => Collect.trace kv.2 (Collect.trace kv.1 c))
      (fun _ => []) (fun c kv => (List.append_nil c).symm) l cc
    rw [h, flatten_map_nil, List.append_nil]
  refine ⟨rfl, rfl, ?_, ?_, ?_, ?_⟩
  · intro m cc
    exact foldl_append_form _ _ step m.entries cc
  · intro m cc
    exact foldl_append_form _ _ step m.entries cc
  · intro m cc
    exact plainBN m.entries cc
  · intro m cc
    exact plainNS m.entries cc

/-- Witness for claim C4: a one-entry hash map with a managed-reference key
registers exactly that key; a non-empty plain-typed hash map and btree map
register nothing. -/
theorem map_collect_spec_witness :
    Collect.trace (HashMapT.mk [(GcRef.mk 3, (7 : Nat))]) ([] : CollectionContext) = [3]
    ∧ Collect.trace (HashMapT.mk [(true, (5 : Nat))]) ([] : CollectionContext) = []
    ∧ Collect.trace (BTreeMapT.mk [((1 : Nat), "x")]) ([] : CollectionContext) = [] := by
  have h := map_collect_spec GcRef Nat (fun p => [p.id]) (fun _ => [])
    (fun _ _ => rfl) (fun v cc => (List.append_nil cc).symm)
  have h2 := map_collect_spec Bool Nat (fun _ => []) (fun _ => [])
    (fun k cc => (List.append_nil cc).symm) (fun v cc => (List.append_nil cc).symm)
  refine ⟨?_, ?_, ?_⟩
  · simpa using h.2.2.1 (HashMapT.mk [(GcRef.mk 3, 7)]) []
  · exact h2.2.2.2.2.1 (HashMapT.mk [(true, 5)]) []
  · exact h2.2.2.2.2.2 (BTreeMapT.mk [(1, "x")]) []

/-- Claim C5: for `Option<T>` and `Result<T, E>`, `needs_trace()` is true iff
some alternative's type needs tracing (for `Option`, exactly
`T::needs_trace()`; for `Result`, the disjunction), and trace forwards
exactly to the present alternative and does nothing for `None`. -/
theorem option_result_collect_spec (α ε : Type) [Collect α] [Collect ε] :
    needsTrace (Option α) = needsTrace α
    ∧ needsTrace (ResultT α ε) = (needsTrace α || needsTrace ε)
    ∧ (∀ (cc : CollectionContext), Collect.trace (none : Option α) cc = cc)
    ∧ (∀ (t : α) (cc : CollectionContext), Collect.trace (some t) cc = Collect.trace t cc)
    ∧ (∀ (v : α) (cc : CollectionContext),
        Collect.trace (ResultT.Ok v : ResultT α ε) cc = Collect.trace v cc)
    ∧ (∀ (e : ε) (cc : CollectionContext),
        Collect.trace (ResultT.Err e : ResultT α ε) cc = Collect.trace e cc) :=
  ⟨rfl, rfl, fun _ => rfl, fun _ _ => rfl, fun _ _ => rfl, fun _ _ => rfl⟩

/-- Claim C6: for `Vec<T>`, `Box<[T]>` and arrays `[T; N]` (N in 1..=32),
`needs_trace()` equals `T::needs_trace()`, and one trace call contributes
every element's visits exactly once, in index order. -/
theorem seq_collect_spec (α : Type) [Collect α] (f : α → List Nat)
    (h : ∀ (x : α) (cc : CollectionContext), Collect.trace x cc = cc ++ f x) :
    needsTrace (VecT α) = needsTrace α
    ∧ needsTrace (BoxSliceT α) = needsTrace α
    ∧ (∀ (n : Nat), needsTrace (ArrayT α n) = needsTrace α)
    ∧ (∀ (v : VecT α) (cc : CollectionContext),
        Collect.trace v cc = cc ++ (v.val.map f).flatten)
    ∧ (∀ (b : BoxSliceT α) (cc : CollectionContext),
        Collect.trace b cc = cc ++ (b.val.map f).flatten)
    ∧ (∀ (n : Nat), 1 ≤ n → n ≤ 32 → ∀ (a : ArrayT α n) (cc : CollectionContext),
        Collect.trace a cc = cc ++ (a.val.map f).flatten) := by
  have step : ∀ (cc : CollectionContext) (x : α), Collect.trace x cc = cc ++ f x :=
    fun cc x => h x cc
  refine ⟨rfl, rfl, fun _ => rfl, ?_, ?_, ?_⟩
  · intro v cc
    exact foldl_append_form (fun c t => Collect.trace t c) f step v.val cc
  · intro b cc
    exact foldl_append_form (fun c t => Collect.trace t c) f step b.val cc
  · intro n h1 h2 a cc
    exact foldl_append_form (fun c t => Collect.trace t c) f step a.val cc

/-- Witness for claim C6: a vector of managed references registers their ids
in index order, and so does a two-element array (size within 1..=32). -/
theorem seq_collect_spec_witness :
    Collect.trace (VecT.mk [GcRef.mk 1, GcRef.mk 2]) ([] : CollectionContext) = [1, 2]
    ∧ Collect.trace (⟨[GcRef.mk 4, GcRef.mk 9], rfl⟩ : ArrayT GcRef 2)
        ([] : CollectionContext) = [4, 9] := by
  have h := seq_collect_spec GcRef (fun p => [p.id]) (fun _ _ => rfl)
  refine ⟨?_, ?_⟩
  · simpa using h.2.2.2.1 (VecT.mk [GcRef.mk 1, GcRef.mk 2]) []
  · simpa using h.2.2.2.2.2 2 (by decide) (by decide)
      (⟨[GcRef.mk 4, GcRef.mk 9], rfl⟩ : ArrayT GcRef 2) []

/-- Claim C7: for every `'static` type `T`, `StaticCollect<T>` reports
`needs_trace() = false` with a no-op traversal, equality delegates to the
wrapped contents, and clone produces a wrapper around a clone of the wrapped
value. -/
theorem static_collect_spec (α : Type) [StaticBound α] [CloneC α] [PartialEqC α] :
    needsTrace (StaticCollect α) = false
    ∧ (∀ (a : StaticCollect α) (cc : CollectionContext), Collect.trace a cc = cc)
    ∧ (∀ (a b : StaticCollect α), PartialEqC.eqv a b = PartialEqC.eqv a.val b.val)
    ∧ (∀ (a : StaticCollect α), CloneC.clone a = StaticCollect.mk (CloneC.clone a.val)) :=
  ⟨rfl, fun _ _ => rfl, fun _ _ => rfl, fun _ => rfl⟩

/-- Witness for claim C7, at the concrete wrapped type `Nat`. -/
theorem static_collect_spec_witness :
    needsTrace (StaticCollect Nat) = false
    ∧ PartialEqC.eqv (StaticCollect.mk (42 : Nat)) (StaticCollect.mk (43 : Nat))
        = PartialEqC.eqv (42 : Nat) (43 : Nat)
    ∧ CloneC.clone (StaticCollect.mk (42 : Nat)) = StaticCollect.mk (CloneC.clone (42 : Nat)) := by
  have h := static_collect_spec Nat
  exact ⟨h.1, h.2.2.1 ⟨42⟩ ⟨43⟩, h.2.2.2 ⟨42⟩⟩

/-- Claim C8: `Cell<T>` and `RefCell<T>` receive `Collect` only under the
unconditional `'static` bound on `T`, and then `needs_trace()` is always
`false` and trace is a no-op regardless of the cell's current contents. -/
theorem cell_collect_spec (α : Type) [StaticBound α] :
    needsTrace (CellT α) = false
    ∧ needsTrace (RefCellT α) = false
    ∧ (∀ (x : CellT α) (cc : CollectionContext), Collect.trace x cc = cc)
    ∧ (∀ (x : RefCellT α) (cc : CollectionContext), Collect.trace x cc = cc) :=
  ⟨rfl, rfl, fun _ _ => rfl, fun _ _ => rfl⟩

/-- Witness for claim C8, at concrete contents. -/
theorem cell_collect_spec_witness :
    needsTrace (CellT Bool) = false
    ∧ Collect.trace (CellT.mk true) ([] : CollectionContext) = []
    ∧ Collect.trace (RefCellT.mk "abc") ([] : CollectionContext) = [] := by
  have h := cell_collect_spec Bool
  have h2 := cell_collect_spec String
  exact ⟨h.1, h.2.2.1 (CellT.mk true) [], h2.2.2.2 (RefCellT.mk "abc") []⟩

/-- Claim C9: every type implementing `Drop` receives the `MustNotImplDrop`
marker, and since the derivation path requires that marker to be absent, no
type is both `Drop` and accepted by the `Collect` derivation — the
conjunction is statically unsatisfiable. -/
theorem no_drop_guard_spec (t : RustType) :
    hasMustNotImplDrop t = t.implsDrop
    ∧ (t.implsDrop && collectDeriveAccepted t) = false := by
  refine ⟨rfl, ?_⟩
  obtain ⟨d, dc⟩ := t
  cases d <;> cases dc <;> rfl

/-- Claim C10: for every type `T` whatsoever — no `Collect` bound on `T` is
required — shared and mutable references `&T` and `&mut T` implement the
protocol with `needs_trace() = false` and a no-op traversal, including at
types whose own `needs_trace()` is `true`. -/
theorem ref_collect_spec (α : Type) :
    needsTrace (RefT α) = false
    ∧ needsTrace (RefMutT α) = false
    ∧ (∀ (r : RefT α) (cc : CollectionContext), Collect.trace r cc = cc)
    ∧ (∀ (r : RefMutT α) (cc : CollectionContext), Collect.trace r cc = cc)
    ∧ needsTrace (RefT GcRef) = false
    ∧ needsTrace (RefMutT GcRef) = false
    ∧ needsTrace GcRef = true :=
  ⟨rfl, rfl, fun _ _ => rfl, fun _ _ => rfl, rfl, rfl, rfl⟩

end GcArena

namespace GcSequence

open GcArena

/-- Claim C1: on a pending one-shot stepped computation, the first step
removes the stored action (and captured state) leaving the storage `None`,
invokes the action with the mutation capability (and captured state), and
returns `Some` of its result — never `None`; with captured state `42` and a
doubling action the first step yields `Some 84`. -/
theorem step_pending_spec (R C R2 : Type)
    (fc : StaticCollect (MutationContext → R))
    (cf : C × StaticCollect (MutationContext → C → R2))
    (mc : MutationContext) :
    SequenceFn.step ⟨some fc⟩ mc = Except.ok (⟨none⟩, some (fc.val mc))
    ∧ SequenceFnWith.step ⟨some cf⟩ mc = Except.ok (⟨none⟩, some (cf.2.val mc cf.1))
    ∧ SequenceFnWith.step (SequenceFnWith.new (42 : Nat) (fun _ n => n + n)) mc
        = Except.ok (⟨none⟩, some (84 : Nat)) :=
  ⟨rfl, rfl, rfl⟩

/-- Claim C2: stepping an exhausted one-shot stepped computation (storage
`None`) panics with the message "cannot step a finished sequence", and the
step panics exactly in that case and no other. -/
theorem step_exhausted_spec (R C R2 : Type)
    (s : SequenceFn (MutationContext → R))
    (w : SequenceFnWith C (MutationContext → C → R2))
    (mc : MutationContext) :
    (SequenceFn.step s mc = Except.error "cannot step a finished sequence" ↔ s.val = none)
    ∧ (SequenceFnWith.step w mc = Except.error "cannot step a finished sequence" ↔ w.val = none) := by
  constructor
  · obtain ⟨sv⟩ := s
    cases sv <;> simp [SequenceFn.step]
  · obtain ⟨wv⟩ := w
    cases wv <;> simp [SequenceFnWith.step]

/-- Witness for claim C2: stepping concrete exhausted instances panics with
the exact message. -/
theorem step_exhausted_spec_witness :
    SequenceFn.step (⟨none⟩ : SequenceFn (MutationContext → Nat)) ⟨()⟩
        = Except.error "cannot step a finished sequence"
    ∧ SequenceFnWith.step (⟨none⟩ : SequenceFnWith Nat (MutationContext → Nat → Nat)) ⟨()⟩
        = Except.error "cannot step a finished sequence" := by
  have h := step_exhausted_spec Nat Nat Nat ⟨none⟩ ⟨none⟩ ⟨()⟩
  exact ⟨h.1.mpr rfl, h.2.mpr rfl⟩

end GcSequence
